import Mathlib

/-
Verification of the collaborative-map adapter of jupyterlab-google-drive.

The repository ships the adapter as `lib/realtime/map.ts` (class `GoogleMap`,
exercised by the test suite in the sources); that file itself is not among the
provided sources, so the adapter and the remote handle it wraps are modelled
from the specification (spec.md §3–§7) and checked against the behaviour the
test suite pins down.
-/

/-- Modelled from the spec: the mutation kinds carried by a native notification
and by a local ChangeEvent (`add`/`update`/`remove`, spec §3). The missing
source is `lib/realtime/map.ts`. -/
inductive EventType where
  | add
  | update
  | remove
deriving DecidableEq, Repr

/-- Modelled from the spec: a ChangeEvent delivered on the adapter's change
signal: mutation kind, key, previous value (or absent), new value (or absent)
(spec §3). The missing source is `lib/realtime/map.ts`. -/
structure ChangeEvent (α : Type) where
  type : EventType
  key : String
  oldValue : Option α
  newValue : Option α
deriving DecidableEq, Repr

/-- Modelled from the spec: a RemoteMapHandle — an opaque mutable key→value
store with string keys, key enumeration in insertion order, and a native
subscription stream identified here by `hid` (spec §3, §6). The missing source
is the realtime backend shim wrapped by `lib/realtime/map.ts`; its contents are
an insertion-ordered association list. -/
structure Handle (α : Type) where
  hid : Nat
  entries : List (String × α)
deriving DecidableEq, Repr

/-- Modelled from the spec: lookup in the handle's insertion-ordered contents
(`get(key) -> optional Value`, spec §3). -/
def hGet {α : Type} : List (String × α) → String → Option α
  | [], _ => none
  | p :: rest, k => if p.1 = k then some p.2 else hGet rest k

/-- Modelled from the spec: handle `set` on the contents — an existing key
keeps its position, a fresh key is appended, preserving insertion order
(spec §3). -/
def hSetList {α : Type} : List (String × α) → String → α → List (String × α)
  | [], k, v => [(k, v)]
  | p :: rest, k, v => if p.1 = k then (k, v) :: rest else p :: hSetList rest k v

/-- Modelled from the spec: handle `delete` on the contents — removes the
entry for the key, preserving the order of the rest (spec §3). -/
def hDeleteList {α : Type} : List (String × α) → String → List (String × α)
  | [], _ => []
  | p :: rest, k => if p.1 = k then hDeleteList rest k else p :: hDeleteList rest k

/-- Modelled from the spec: the native notification fired by a handle `set`.
One notification per remote mutation (spec §3): a write to an absent key fires
`add`, a write changing a stored value fires `update`, and a write that stores
the value already present is not a mutation and fires nothing. -/
def setEvents {α : Type} [DecidableEq α] (m : List (String × α)) (k : String) (v : α) :
    List (ChangeEvent α) :=
  match hGet m k with
  | none => [⟨.add, k, none, some v⟩]
  | some w => if w = v then [] else [⟨.update, k, some w, some v⟩]

/-- Modelled from the spec: the native notification fired by a handle `delete`
— one `remove` notification when the key was present, nothing otherwise
(spec §3, §7). -/
def deleteEvents {α : Type} (m : List (String × α)) (k : String) : List (ChangeEvent α) :=
  match hGet m k with
  | none => []
  | some w => [⟨.remove, k, some w, none⟩]

/-- Modelled from the spec: `clear()` deletes all keys and each removal
surfaces as an independent native `remove` event, with no batched clear event
type (spec §4.1). -/
def clearEvents {α : Type} (m : List (String × α)) : List (ChangeEvent α) :=
  m.map (fun p => ⟨.remove, p.1, some p.2, none⟩)

/-- Modelled from the spec: the swap diff's treatment of one old-snapshot
entry (spec §4.1 step 4): a key absent from the new snapshot emits `remove`,
a key present with a differing value emits `update`, and an equal value emits
nothing. -/
def diffOldEvent {α : Type} [DecidableEq α] (new_ : List (String × α)) (p : String × α) :
    Option (ChangeEvent α) :=
  match hGet new_ p.1 with
  | none => some ⟨.remove, p.1, some p.2, none⟩
  | some v2 => if p.2 = v2 then none else some ⟨.update, p.1, some p.2, some v2⟩

/-- Modelled from the spec: the swap diff's treatment of one new-snapshot
entry (spec §4.1 step 4): a key absent from the old snapshot emits `add`;
keys present in both were already handled from the old side. -/
def diffNewEvent {α : Type} (old : List (String × α)) (p : String × α) :
    Option (ChangeEvent α) :=
  match hGet old p.1 with
  | none => some ⟨.add, p.1, none, some p.2⟩
  | some _ => none

/-- Modelled from the spec: the synthetic reconciliation diff of a handle swap
(spec §4.1 step 4): keys only in the old snapshot emit `remove`, keys only in
the new snapshot emit `add`, keys in both with differing values emit `update`,
keys in both with equal values emit nothing. -/
def diffEvents {α : Type} [DecidableEq α] (old new_ : List (String × α)) :
    List (ChangeEvent α) :=
  old.filterMap (diffOldEvent new_) ++ new_.filterMap (diffNewEvent old)

/-- Modelled from the spec: the single error kind of the component —
DisposedStateError, raised by any accessor or mutator invoked on a disposed
adapter (spec §7). -/
inductive MapError where
  | disposed
deriving DecidableEq, Repr

/-- Modelled from the spec: a `(sender, ChangeEvent)` pair delivered to
observers of the change signal (spec §6); the sender is recorded by the
adapter instance identifier. -/
structure SignalMsg (α : Type) where
  sender : Nat
  args : ChangeEvent α
deriving DecidableEq, Repr

/-- Modelled from the spec: the CollaborativeMapAdapter (class `GoogleMap` of
`lib/realtime/map.ts`, which is missing from the sources). It owns an instance
identity `id` (the sender of its change signal) and the currently bound remote
handle; after disposal it holds no handle reference (spec §3), so the bound
handle is an `Option` and `isDisposed` is its absence. -/
structure GoogleMap (α : Type) where
  id : Nat
  googleObject : Option (Handle α)
deriving DecidableEq, Repr

/-- Modelled from the spec: `disposed` is true exactly when the adapter no
longer holds a handle reference (spec §3 lifecycle). -/
def GoogleMap.isDisposed {α : Type} (a : GoogleMap α) : Bool :=
  a.googleObject.isNone

/-- Modelled from the spec: publishing a batch of events on the change signal
delivers each to observers paired with the adapter as sender (spec §6). -/
def GoogleMap.emitAll {α : Type} (a : GoogleMap α) (es : List (ChangeEvent α)) :
    List (SignalMsg α) :=
  es.map (fun e => ⟨a.id, e⟩)

/-- Modelled from the spec: `get(key)` delegates to the handle, fires no
event, and fails with DisposedStateError on a disposed adapter (spec §4.1). -/
def GoogleMap.get {α : Type} (a : GoogleMap α) (k : String) : Except MapError (Option α) :=
  match a.googleObject with
  | none => .error .disposed
  | some h => .ok (hGet h.entries k)

/-- Modelled from the spec: `has(key)` (spec §4.1). -/
def GoogleMap.has {α : Type} (a : GoogleMap α) (k : String) : Except MapError Bool :=
  match a.googleObject with
  | none => .error .disposed
  | some h => .ok (hGet h.entries k).isSome

/-- Modelled from the spec: `size`, the count of entries (spec §4.1). -/
def GoogleMap.size {α : Type} (a : GoogleMap α) : Except MapError Nat :=
  match a.googleObject with
  | none => .error .disposed
  | some h => .ok h.entries.length

/-- Modelled from the spec: `keys()`, the handle's keys in insertion order
(spec §4.1). -/
def GoogleMap.keys {α : Type} (a : GoogleMap α) : Except MapError (List String) :=
  match a.googleObject with
  | none => .error .disposed
  | some h => .ok (h.entries.map Prod.fst)

/-- Modelled from the spec: `values()`, aligned with `keys()` (spec §4.1). -/
def GoogleMap.values {α : Type} (a : GoogleMap α) : Except MapError (List α) :=
  match a.googleObject with
  | none => .error .disposed
  | some h => .ok (h.entries.map Prod.snd)

/-- Modelled from the spec: `set(key, value)` writes through to the handle and
returns the value previously stored; the handle's native subscription is the
sole source of the resulting change event, echoed back synchronously here
(spec §4.1, §5). Fails with DisposedStateError when disposed. -/
def GoogleMap.set {α : Type} [DecidableEq α] (a : GoogleMap α) (k : String) (v : α) :
    Except MapError (Option α × GoogleMap α × List (SignalMsg α)) :=
  match a.googleObject with
  | none => .error .disposed
  | some h =>
    .ok (hGet h.entries k,
         { a with googleObject := some { h with entries := hSetList h.entries k v } },
         a.emitAll (setEvents h.entries k v))

/-- Modelled from the spec: `delete(key)` writes through and returns the
removed value or absent; the event arrives via the native subscription as with
`set` (spec §4.1). -/
def GoogleMap.delete {α : Type} (a : GoogleMap α) (k : String) :
    Except MapError (Option α × GoogleMap α × List (SignalMsg α)) :=
  match a.googleObject with
  | none => .error .disposed
  | some h =>
    .ok (hGet h.entries k,
         { a with googleObject := some { h with entries := hDeleteList h.entries k } },
         a.emitAll (deleteEvents h.entries k))

/-- Modelled from the spec: `clear()` deletes all keys, each removal surfacing
as an independent native remove event; clearing an empty map is a no-op with
no events (spec §4.1). -/
def GoogleMap.clear {α : Type} (a : GoogleMap α) :
    Except MapError (GoogleMap α × List (SignalMsg α)) :=
  match a.googleObject with
  | none => .error .disposed
  | some h =>
    .ok ({ a with googleObject := some { h with entries := [] } },
         a.emitAll (clearEvents h.entries))

/-- Modelled from the spec: `dispose()` — on first disposal unsubscribe,
release the handle reference and go silent; disposing an already-disposed
adapter is a no-op and raises no error (spec §4.1 Disposal). -/
def GoogleMap.dispose {α : Type} (a : GoogleMap α) : GoogleMap α :=
  { a with googleObject := none }

/-- Modelled from the spec: rebinding (swap) — capture the old snapshot,
unsubscribe from the old handle, bind the new handle, emit the synthetic
reconciliation diff, and subscribe to the new handle (spec §4.1 Rebinding);
a disposed adapter emits no further events (spec §3), so swap on a disposed
adapter is a silent no-op. -/
def GoogleMap.setGoogleObject {α : Type} [DecidableEq α] (a : GoogleMap α) (h2 : Handle α) :
    GoogleMap α × List (SignalMsg α) :=
  match a.googleObject with
  | none => (a, [])
  | some h1 =>
    ({ a with googleObject := some h2 },
     a.emitAll (diffEvents h1.entries h2.entries))

/-- Modelled from the spec: delivery of a native notification originating from
the handle stream identified by `src`. The adapter holds exactly one active
subscription — to its currently bound handle — so a notification is relayed
1:1 if and only if it comes from that handle's stream; events from a handle
the adapter has unsubscribed from are not delivered (spec §4.1 step 2, §5). -/
def GoogleMap.relayNative {α : Type} (a : GoogleMap α) (src : Nat) (e : ChangeEvent α) :
    List (SignalMsg α) :=
  match a.googleObject with
  | none => []
  | some h => if h.hid = src then a.emitAll [e] else []

/-- Modelled from the spec: the operations an application (or the remote
backend, for `remoteSet`/`remoteDel`) can drive the adapter with; remote
mutations reach the adapter through the native subscription and are translated
1:1 (spec §2, §4.1). -/
inductive MapOp (α : Type) where
  | set (k : String) (v : α)
  | del (k : String)
  | clear
  | swap (h : Handle α)
  | dispose
  | remoteSet (k : String) (v : α)
  | remoteDel (k : String)

/-- Modelled from the spec: one step of the adapter's event-driven life — the
new adapter state and the batch of signal messages delivered synchronously for
that step (spec §5). A failing accessor (disposed) delivers nothing. -/
def runOp {α : Type} [DecidableEq α] (a : GoogleMap α) : MapOp α → GoogleMap α × List (SignalMsg α)
  | .set k v =>
    match a.set k v with
    | .ok (_, a2, ms) => (a2, ms)
    | .error _ => (a, [])
  | .del k =>
    match a.delete k with
    | .ok (_, a2, ms) => (a2, ms)
    | .error _ => (a, [])
  | .clear =>
    match a.clear with
    | .ok (a2, ms) => (a2, ms)
    | .error _ => (a, [])
  | .swap h => a.setGoogleObject h
  | .dispose => (a.dispose, [])
  | .remoteSet k v =>
    match a.googleObject with
    | none => (a, [])
    | some h =>
      ({ a with googleObject := some { h with entries := hSetList h.entries k v } },
       a.emitAll (setEvents h.entries k v))
  | .remoteDel k =>
    match a.googleObject with
    | none => (a, [])
    | some h =>
      ({ a with googleObject := some { h with entries := hDeleteList h.entries k } },
       a.emitAll (deleteEvents h.entries k))

/-- Modelled from the spec: running a sequence of operations, accumulating the
signal messages in emission order (spec §5). -/
def runOps {α : Type} [DecidableEq α] (a : GoogleMap α) : List (MapOp α) → GoogleMap α × List (SignalMsg α)
  | [] => (a, [])
  | op :: ops =>
    let s1 := runOp a op
    let s2 := runOps s1.1 ops
    (s2.1, s1.2 ++ s2.2)

/-- The ChangeEvent invariant of spec §3: `kind = add` ⇔ oldValue absent ∧
newValue present; `kind = remove` ⇔ oldValue present ∧ newValue absent;
`kind = update` ⇔ both present and oldValue ≠ newValue. -/
def eventOk {α : Type} (e : ChangeEvent α) : Prop :=
  (e.type = .add ↔ e.oldValue = none ∧ e.newValue.isSome = true)
  ∧ (e.type = .remove ↔ e.oldValue.isSome = true ∧ e.newValue = none)
  ∧ (e.type = .update ↔ e.oldValue.isSome = true ∧ e.newValue.isSome = true ∧ e.oldValue ≠ e.newValue)

/-- The per-key symmetric-difference prescription of spec §4.1 step 4, written
from the spec's words for comparison with `diffEvents`. -/
def specSwapDiffAt {α : Type} [DecidableEq α] (o n : Option α) (k : String) :
    List (ChangeEvent α) :=
  match o, n with
  | none, none => []
  | some v, none => [⟨.remove, k, some v, none⟩]
  | none, some w => [⟨.add, k, none, some w⟩]
  | some v, some w => if v = w then [] else [⟨.update, k, some v, some w⟩]

/-- The standard-map replay semantics of spec §8, written from the spec's
words: the functional-map effect of one operation. -/
def replayModel {α : Type} : (String → Option α) → MapOp α → (String → Option α)
  | f, .set k v => fun x => if x = k then some v else f x
  | f, .del k => fun x => if x = k then none else f x
  | _, .clear => fun _ => none
  | f, _ => f

/-- Whether an operation is one of the local data mutators `set`/`delete`/
`clear` of spec §8's replay property. -/
def MapOp.isData {α : Type} : MapOp α → Bool
  | .set _ _ => true
  | .del _ => true
  | .clear => true
  | _ => false

/-! ### Basic lemmas about the handle contents -/

theorem hGet_eq_none_of_forall_ne {α : Type} (m : List (String × α)) (k : String)
    (h : ∀ p ∈ m, p.1 ≠ k) : hGet m k = none := by
  induction m with
  | nil => rfl
  | cons p rest ih =>
    simp only [hGet]
    rw [if_neg (h p (by simp))]
    exact ih (fun q hq => h q (by simp [hq]))

theorem hGet_hSetList {α : Type} (m : List (String × α)) (k : String) (v : α) (x : String) :
    hGet (hSetList m k v) x = if x = k then some v else hGet m x := by
  induction m with
  | nil =>
    by_cases hxk : x = k
    · subst hxk; simp [hSetList, hGet]
    · simp [hSetList, hGet, hxk, Ne.symm hxk]
  | cons p rest ih =>
    simp only [hSetList]
    by_cases hpk : p.1 = k
    · rw [if_pos hpk]
      simp only [hGet]
      by_cases hxk : x = k
      · rw [if_pos hxk, if_pos (show k = x from hxk.symm)]
      · rw [if_neg hxk, if_neg (show ¬ k = x from fun hh => hxk hh.symm),
            if_neg (show ¬ p.1 = x from fun hh => hxk (hh.symm.trans hpk))]
    · rw [if_neg hpk]
      simp only [hGet]
      by_cases hpx : p.1 = x
      · rw [if_pos hpx, if_neg (show ¬ x = k from fun hh => hpk (hpx.trans hh)), if_pos hpx]
      · rw [if_neg hpx, ih, if_neg hpx]

theorem hGet_hDeleteList {α : Type} (m : List (String × α)) (k : String) (x : String) :
    hGet (hDeleteList m k) x = if x = k then none else hGet m x := by
  induction m with
  | nil => simp [hDeleteList, hGet]
  | cons p rest ih =>
    simp only [hDeleteList]
    by_cases hpk : p.1 = k
    · rw [if_pos hpk, ih]
      by_cases hxk : x = k
      · rw [if_pos hxk, if_pos hxk]
      · rw [if_neg hxk, if_neg hxk]
        simp only [hGet]
        rw [if_neg (show ¬ p.1 = x from fun hh => hxk (hh.symm.trans hpk))]
    · rw [if_neg hpk]
      simp only [hGet]
      by_cases hpx : p.1 = x
      · rw [if_pos hpx, if_neg (show ¬ x = k from fun hh => hpk (hpx.trans hh)), if_pos hpx]
      · rw [if_neg hpx, ih, if_neg hpx]

theorem hGet_get_of_nodup {α : Type} :
    ∀ (m : List (String × α)), (m.map Prod.fst).Nodup →
      ∀ i (hi : i < m.length), hGet m (m.get ⟨i, hi⟩).1 = some ((m.get ⟨i, hi⟩).2) := by
  intro m
  induction m with
  | nil => intro _ i hi; exact absurd hi (by simp)
  | cons p rest ih =>
    intro hnd i hi
    have hnd' : p.1 ∉ rest.map Prod.fst ∧ (rest.map Prod.fst).Nodup :=
      List.nodup_cons.mp (List.map_cons Prod.fst p rest ▸ hnd)
    cases i with
    | zero => simp [hGet]
    | succ j =>
      have hj : j < rest.length := by simpa using hi
      have hkey : (rest.get ⟨j, hj⟩).1 ∈ rest.map Prod.fst :=
        List.mem_map.mpr ⟨rest.get ⟨j, hj⟩, List.get_mem rest j hj, rfl⟩
      have hne : ¬ p.1 = (rest.get ⟨j, hj⟩).1 := by
        intro hcon
        exact hnd'.1 (hcon ▸ hkey)
      have hrec := ih hnd'.2 j hj
      rw [show ((p :: rest).get ⟨j + 1, hi⟩) = rest.get ⟨j, hj⟩ from rfl]
      simp only [hGet]
      rw [if_neg hne]
      exact hrec

theorem emitAll_map_args {α : Type} (a : GoogleMap α) (es : List (ChangeEvent α)) :
    (a.emitAll es).map SignalMsg.args = es := by
  unfold GoogleMap.emitAll
  rw [List.map_map]
  have hcomp : (SignalMsg.args ∘ fun e => (⟨a.id, e⟩ : SignalMsg α)) = id := by
    funext e; rfl
  rw [hcomp, List.map_id]

/-! ### Per-key characterization of the swap reconciliation diff -/

theorem filterMap_filter_key {α : Type} (f : String × α → Option (ChangeEvent α))
    (hf : ∀ p e, f p = some e → e.key = p.1) (k : String) :
    ∀ (m : List (String × α)), (m.map Prod.fst).Nodup →
      (m.filterMap f).filter (fun e => e.key == k) =
        ((hGet m k).bind (fun v => f (k, v))).toList := by
  intro m
  induction m with
  | nil => intro _; rfl
  | cons p rest ih =>
    intro hnd
    have hnd' : p.1 ∉ rest.map Prod.fst ∧ (rest.map Prod.fst).Nodup :=
      List.nodup_cons.mp (List.map_cons Prod.fst p rest ▸ hnd)
    by_cases hpk : p.1 = k
    · subst hpk
      have hrest : hGet rest p.1 = none := by
        apply hGet_eq_none_of_forall_ne
        intro q hq hcon
        exact hnd'.1 (List.mem_map.mpr ⟨q, hq, hcon⟩)
      have hihnil : (rest.filterMap f).filter (fun e => e.key == p.1) = [] := by
        rw [ih hnd'.2, hrest]; rfl
      have hcons : hGet (p :: rest) p.1 = some p.2 := by
        simp [hGet]
      rw [hcons]
      cases hfp : f p with
      | none =>
        rw [List.filterMap_cons_none hfp, hihnil]
        have hfp2 : f (p.1, p.2) = none := by rwa [Prod.mk.eta]
        rw [show ((some p.2).bind fun v => f (p.1, v)) = f (p.1, p.2) from rfl, hfp2]
        rfl
      | some e =>
        rw [List.filterMap_cons_some hfp]
        have hkey : e.key = p.1 := hf p e hfp
        rw [List.filter_cons, if_pos (by simp [hkey]), hihnil]
        have hfp2 : f (p.1, p.2) = some e := by rwa [Prod.mk.eta]
        rw [show ((some p.2).bind fun v => f (p.1, v)) = f (p.1, p.2) from rfl, hfp2]
        rfl
    · have hstep : hGet (p :: rest) k = hGet rest k := by
        simp only [hGet]; rw [if_neg hpk]
      rw [hstep]
      cases hfp : f p with
      | none =>
        rw [List.filterMap_cons_none hfp]
        exact ih hnd'.2
      | some e =>
        rw [List.filterMap_cons_some hfp, List.filter_cons,
            if_neg (by simp [hf p e hfp, hpk])]
        exact ih hnd'.2

theorem diffOldEvent_key {α : Type} [DecidableEq α] (new_ : List (String × α))
    (p : String × α) (e : ChangeEvent α) (h : diffOldEvent new_ p = some e) :
    e.key = p.1 := by
  cases hc : hGet new_ p.1 with
  | none =>
    simp only [diffOldEvent, hc] at h
    cases h; rfl
  | some v2 =>
    simp only [diffOldEvent, hc] at h
    by_cases hv : p.2 = v2
    · rw [if_pos hv] at h; exact Option.noConfusion h
    · rw [if_neg hv] at h; cases h; rfl

theorem diffNewEvent_key {α : Type} (old : List (String × α))
    (p : String × α) (e : ChangeEvent α) (h : diffNewEvent old p = some e) :
    e.key = p.1 := by
  cases hc : hGet old p.1 with
  | none =>
    simp only [diffNewEvent, hc] at h
    cases h; rfl
  | some v =>
    simp only [diffNewEvent, hc] at h
    exact Option.noConfusion h

theorem diffEvents_filter_key {α : Type} [DecidableEq α] (old new_ : List (String × α))
    (h1 : (old.map Prod.fst).Nodup) (h2 : (new_.map Prod.fst).Nodup) (k : String) :
    (diffEvents old new_).filter (fun e => e.key == k) =
      specSwapDiffAt (hGet old k) (hGet new_ k) k := by
  unfold diffEvents
  rw [List.filter_append,
      filterMap_filter_key (diffOldEvent new_) (diffOldEvent_key new_) k old h1,
      filterMap_filter_key (diffNewEvent old) (diffNewEvent_key old) k new_ h2]
  cases ho : hGet old k with
  | none =>
    cases hn : hGet new_ k with
    | none => rfl
    | some w =>
      simp only [Option.bind, Option.toList, specSwapDiffAt, diffNewEvent, ho]
      rfl
  | some v =>
    cases hn : hGet new_ k with
    | none =>
      simp only [Option.bind, Option.toList, specSwapDiffAt, diffOldEvent, hn]
      rfl
    | some w =>
      by_cases hvw : v = w
      · subst hvw
        simp only [Option.bind, Option.toList, specSwapDiffAt, diffOldEvent, diffNewEvent,
                   hn, ho, if_pos rfl]
        rfl
      · simp only [Option.bind, Option.toList, specSwapDiffAt, diffOldEvent, diffNewEvent,
                   hn, ho, if_neg hvw]
        rfl

/-! ### The ChangeEvent invariant holds for every generated event -/

theorem eventOk_add {α : Type} (k : String) (v : α) :
    eventOk (⟨.add, k, none, some v⟩ : ChangeEvent α) := by
  refine ⟨?_, ?_, ?_⟩ <;> simp

theorem eventOk_remove {α : Type} (k : String) (v : α) :
    eventOk (⟨.remove, k, some v, none⟩ : ChangeEvent α) := by
  refine ⟨?_, ?_, ?_⟩ <;> simp

theorem eventOk_update {α : Type} (k : String) (v w : α) (hvw : v ≠ w) :
    eventOk (⟨.update, k, some v, some w⟩ : ChangeEvent α) := by
  refine ⟨?_, ?_, ?_⟩ <;> simp [hvw]

theorem eventOk_setEvents {α : Type} [DecidableEq α] (m : List (String × α))
    (k : String) (v : α) (e : ChangeEvent α) (he : e ∈ setEvents m k v) : eventOk e := by
  cases hc : hGet m k with
  | none =>
    simp only [setEvents, hc, List.mem_singleton] at he
    exact he ▸ eventOk_add k v
  | some w =>
    by_cases hwv : w = v
    · simp only [setEvents, hc, if_pos hwv] at he
      exact absurd he (List.not_mem_nil e)
    · simp only [setEvents, hc, if_neg hwv, List.mem_singleton] at he
      exact he ▸ eventOk_update k w v (fun hh => hwv hh)

theorem eventOk_deleteEvents {α : Type} (m : List (String × α))
    (k : String) (e : ChangeEvent α) (he : e ∈ deleteEvents m k) : eventOk e := by
  cases hc : hGet m k with
  | none =>
    simp only [deleteEvents, hc] at he
    exact absurd he (List.not_mem_nil e)
  | some w =>
    simp only [deleteEvents, hc, List.mem_singleton] at he
    exact he ▸ eventOk_remove k w

theorem eventOk_clearEvents {α : Type} (m : List (String × α))
    (e : ChangeEvent α) (he : e ∈ clearEvents m) : eventOk e := by
  rcases List.mem_map.mp he with ⟨p, _, rfl⟩
  exact eventOk_remove p.1 p.2

theorem eventOk_diffOldEvent {α : Type} [DecidableEq α] (new_ : List (String × α))
    (p : String × α) (e : ChangeEvent α) (h : diffOldEvent new_ p = some e) : eventOk e := by
  cases hc : hGet new_ p.1 with
  | none =>
    simp only [diffOldEvent, hc] at h
    exact Option.some.inj h ▸ eventOk_remove p.1 p.2
  | some v2 =>
    simp only [diffOldEvent, hc] at h
    by_cases hv : p.2 = v2
    · rw [if_pos hv] at h; exact Option.noConfusion h
    · rw [if_neg hv] at h
      exact Option.some.inj h ▸ eventOk_update p.1 p.2 v2 hv

theorem eventOk_diffNewEvent {α : Type} (old : List (String × α))
    (p : String × α) (e : ChangeEvent α) (h : diffNewEvent old p = some e) : eventOk e := by
  cases hc : hGet old p.1 with
  | none =>
    simp only [diffNewEvent, hc] at h
    exact Option.some.inj h ▸ eventOk_add p.1 p.2
  | some v =>
    simp only [diffNewEvent, hc] at h
    exact Option.noConfusion h

theorem eventOk_diffEvents {α : Type} [DecidableEq α] (old new_ : List (String × α))
    (e : ChangeEvent α) (he : e ∈ diffEvents old new_) : eventOk e := by
  rcases List.mem_append.mp he with hmem | hmem
  · rcases List.mem_filterMap.mp hmem with ⟨p, _, hp⟩
    exact eventOk_diffOldEvent new_ p e hp
  · rcases List.mem_filterMap.mp hmem with ⟨p, _, hp⟩
    exact eventOk_diffNewEvent old p e hp

theorem mem_emitAll {α : Type} {a : GoogleMap α} {es : List (ChangeEvent α)}
    {msg : SignalMsg α} (h : msg ∈ a.emitAll es) :
    msg.sender = a.id ∧ msg.args ∈ es := by
  rcases List.mem_map.mp h with ⟨e, he, rfl⟩
  exact ⟨rfl, he⟩

theorem diffEvents_eq_nil {α : Type} [DecidableEq α] (old new_ : List (String × α))
    (h1 : (old.map Prod.fst).Nodup) (h2 : (new_.map Prod.fst).Nodup)
    (hagree : ∀ k, hGet old k = hGet new_ k) : diffEvents old new_ = [] := by
  cases hd : diffEvents old new_ with
  | nil => rfl
  | cons e rest =>
    have hc := diffEvents_filter_key old new_ h1 h2 e.key
    rw [hd, hagree e.key] at hc
    have hspec : specSwapDiffAt (hGet new_ e.key) (hGet new_ e.key) e.key = ([] : List (ChangeEvent α)) := by
      cases hGet new_ e.key with
      | none => rfl
      | some v => simp [specSwapDiffAt]
    rw [hspec, List.filter_cons, if_pos (by simp)] at hc
    exact List.noConfusion hc

theorem eventOk_runOp {α : Type} [DecidableEq α] (a : GoogleMap α) (op : MapOp α)
    (msg : SignalMsg α) (hmem : msg ∈ (runOp a op).2) : eventOk msg.args := by
  cases op with
  | set k v =>
    cases hgo : a.googleObject with
    | none => simp [runOp, GoogleMap.set, hgo] at hmem
    | some h =>
      simp only [runOp, GoogleMap.set, hgo] at hmem
      exact eventOk_setEvents h.entries k v msg.args (mem_emitAll hmem).2
  | del k =>
    cases hgo : a.googleObject with
    | none => simp [runOp, GoogleMap.delete, hgo] at hmem
    | some h =>
      simp only [runOp, GoogleMap.delete, hgo] at hmem
      exact eventOk_deleteEvents h.entries k msg.args (mem_emitAll hmem).2
  | clear =>
    cases hgo : a.googleObject with
    | none => simp [runOp, GoogleMap.clear, hgo] at hmem
    | some h =>
      simp only [runOp, GoogleMap.clear, hgo] at hmem
      exact eventOk_clearEvents h.entries msg.args (mem_emitAll hmem).2
  | swap h2 =>
    cases hgo : a.googleObject with
    | none => simp [runOp, GoogleMap.setGoogleObject, hgo] at hmem
    | some h =>
      simp only [runOp, GoogleMap.setGoogleObject, hgo] at hmem
      exact eventOk_diffEvents h.entries h2.entries msg.args (mem_emitAll hmem).2
  | dispose => simp [runOp] at hmem
  | remoteSet k v =>
    cases hgo : a.googleObject with
    | none => simp [runOp, hgo] at hmem
    | some h =>
      simp only [runOp, hgo] at hmem
      exact eventOk_setEvents h.entries k v msg.args (mem_emitAll hmem).2
  | remoteDel k =>
    cases hgo : a.googleObject with
    | none => simp [runOp, hgo] at hmem
    | some h =>
      simp only [runOp, hgo] at hmem
      exact eventOk_deleteEvents h.entries k msg.args (mem_emitAll hmem).2

theorem sender_runOp {α : Type} [DecidableEq α] (a : GoogleMap α) (op : MapOp α)
    (msg : SignalMsg α) (hmem : msg ∈ (runOp a op).2) : msg.sender = a.id := by
  cases op with
  | set k v =>
    cases hgo : a.googleObject with
    | none => simp [runOp, GoogleMap.set, hgo] at hmem
    | some h =>
      simp only [runOp, GoogleMap.set, hgo] at hmem
      exact (mem_emitAll hmem).1
  | del k =>
    cases hgo : a.googleObject with
    | none => simp [runOp, GoogleMap.delete, hgo] at hmem
    | some h =>
      simp only [runOp, GoogleMap.delete, hgo] at hmem
      exact (mem_emitAll hmem).1
  | clear =>
    cases hgo : a.googleObject with
    | none => simp [runOp, GoogleMap.clear, hgo] at hmem
    | some h =>
      simp only [runOp, GoogleMap.clear, hgo] at hmem
      exact (mem_emitAll hmem).1
  | swap h2 =>
    cases hgo : a.googleObject with
    | none => simp [runOp, GoogleMap.setGoogleObject, hgo] at hmem
    | some h =>
      simp only [runOp, GoogleMap.setGoogleObject, hgo] at hmem
      exact (mem_emitAll hmem).1
  | dispose => simp [runOp] at hmem
  | remoteSet k v =>
    cases hgo : a.googleObject with
    | none => simp [runOp, hgo] at hmem
    | some h =>
      simp only [runOp, hgo] at hmem
      exact (mem_emitAll hmem).1
  | remoteDel k =>
    cases hgo : a.googleObject with
    | none => simp [runOp, hgo] at hmem
    | some h =>
      simp only [runOp, hgo] at hmem
      exact (mem_emitAll hmem).1

theorem id_runOp {α : Type} [DecidableEq α] (a : GoogleMap α) (op : MapOp α) :
    ((runOp a op).1).id = a.id := by
  cases op <;> cases hgo : a.googleObject <;>
    simp [runOp, GoogleMap.set, GoogleMap.delete, GoogleMap.clear,
          GoogleMap.setGoogleObject, GoogleMap.dispose, hgo]

/-! ### Claim theorems -/

/-- C1: rebinding the adapter to a new handle emits exactly the
symmetric-difference events between the old snapshot and the new snapshot —
per key: one `remove` (oldValue = old value, newValue absent) for a key only
in the old snapshot, one `add` (oldValue absent, newValue = new value) for a
key only in the new one, one `update` for a key in both with differing values,
and no event for a key in both with equal values; identical snapshots emit
zero events; and the accessor state after the swap is exactly the new
snapshot. -/
theorem swap_emits_symmetric_difference {α : Type} [DecidableEq α]
    (a : GoogleMap α) (h1 h2 : Handle α) (hb : a.googleObject = some h1)
    (hn1 : (h1.entries.map Prod.fst).Nodup) (hn2 : (h2.entries.map Prod.fst).Nodup) :
    (∀ k, (((a.setGoogleObject h2).2).map SignalMsg.args).filter (fun e => e.key == k)
        = specSwapDiffAt (hGet h1.entries k) (hGet h2.entries k) k)
    ∧ ((a.setGoogleObject h2).1).googleObject = some h2
    ∧ ((∀ k, hGet h1.entries k = hGet h2.entries k) → (a.setGoogleObject h2).2 = []) := by
  refine ⟨?_, ?_, ?_⟩
  · intro k
    simp only [GoogleMap.setGoogleObject, hb]
    rw [emitAll_map_args]
    exact diffEvents_filter_key h1.entries h2.entries hn1 hn2 k
  · simp [GoogleMap.setGoogleObject, hb]
  · intro hagree
    simp only [GoogleMap.setGoogleObject, hb]
    rw [diffEvents_eq_nil h1.entries h2.entries hn1 hn2 hagree]
    rfl

/-- Witness for C1 at the spec's concrete example: swapping from a handle
holding foo ↦ 1 to one holding bar ↦ 2 emits exactly a remove of foo and an
add of bar, and the adapter ends bound to the new handle. -/
theorem swap_emits_symmetric_difference_witness :
    ((((⟨0, some ⟨0, [("foo", 1)]⟩⟩ : GoogleMap Nat).setGoogleObject
        ⟨1, [("bar", 2)]⟩).2).map SignalMsg.args).filter (fun e => e.key == "foo")
      = [⟨.remove, "foo", some 1, none⟩]
    ∧ ((((⟨0, some ⟨0, [("foo", 1)]⟩⟩ : GoogleMap Nat).setGoogleObject
        ⟨1, [("bar", 2)]⟩).2).map SignalMsg.args).filter (fun e => e.key == "bar")
      = [⟨.add, "bar", none, some 2⟩]
    ∧ (((⟨0, some ⟨0, [("foo", 1)]⟩⟩ : GoogleMap Nat).setGoogleObject
        ⟨1, [("bar", 2)]⟩).1).googleObject = some ⟨1, [("bar", 2)]⟩
    ∧ (((⟨0, some ⟨0, [("foo", 1)]⟩⟩ : GoogleMap Nat).setGoogleObject
        ⟨1, [("bar", 2)]⟩).2).length = 2 := by
  have h := swap_emits_symmetric_difference (⟨0, some ⟨0, [("foo", 1)]⟩⟩ : GoogleMap Nat)
      ⟨0, [("foo", 1)]⟩ ⟨1, [("bar", 2)]⟩ rfl (by decide) (by decide)
  refine ⟨?_, ?_, h.2.1, by decide⟩
  · have hval : specSwapDiffAt (hGet ([("foo", (1 : Nat))]) "foo") (hGet [("bar", 2)] "foo") "foo"
        = [⟨.remove, "foo", some 1, none⟩] := by decide
    rw [← hval]
    exact h.1 "foo"
  · have hval : specSwapDiffAt (hGet ([("foo", (1 : Nat))]) "bar") (hGet [("bar", 2)] "bar") "bar"
        = [⟨.add, "bar", none, some 2⟩] := by decide
    rw [← hval]
    exact h.1 "bar"

/-- C2: every ChangeEvent ever delivered on the change signal — whether
relayed from a native mutation (local or remote write-through) or synthesized
during a swap — satisfies the kind/oldValue/newValue invariant: `add` ⇔
oldValue absent ∧ newValue present, `remove` ⇔ oldValue present ∧ newValue
absent, `update` ⇔ both present and differing. -/
theorem changed_events_satisfy_invariant {α : Type} [DecidableEq α]
    (a : GoogleMap α) (ops : List (MapOp α)) (msg : SignalMsg α)
    (hmem : msg ∈ (runOps a ops).2) : eventOk msg.args := by
  induction ops generalizing a with
  | nil => simp [runOps] at hmem
  | cons op ops ih =>
    simp only [runOps] at hmem
    rcases List.mem_append.mp hmem with hmem1 | hmem2
    · exact eventOk_runOp a op msg hmem1
    · exact ih (runOp a op).1 hmem2

/-- Witness for C2: the add event published by a set on a fresh key satisfies
the invariant. -/
theorem changed_events_satisfy_invariant_witness :
    eventOk (⟨.add, "x", none, some 1⟩ : ChangeEvent Nat) :=
  changed_events_satisfy_invariant (⟨0, some ⟨0, []⟩⟩ : GoogleMap Nat)
    [MapOp.set "x" 1] ⟨0, ⟨.add, "x", none, some 1⟩⟩ (by decide)

/-- C10: every `(sender, ChangeEvent)` pair delivered on the change signal —
whether triggered by set, delete, clear, remote mutation or handle swap — has
the adapter instance itself as sender. -/
theorem changed_sender_is_adapter {α : Type} [DecidableEq α]
    (a : GoogleMap α) (ops : List (MapOp α)) (msg : SignalMsg α)
    (hmem : msg ∈ (runOps a ops).2) : msg.sender = a.id := by
  induction ops generalizing a with
  | nil => simp [runOps] at hmem
  | cons op ops ih =>
    simp only [runOps] at hmem
    rcases List.mem_append.mp hmem with hmem1 | hmem2
    · exact sender_runOp a op msg hmem1
    · rw [ih (runOp a op).1 hmem2, id_runOp]

/-- Witness for C10: the message published by a set carries the adapter's
identity as sender. -/
theorem changed_sender_is_adapter_witness :
    (⟨7, ⟨.add, "y", none, some 2⟩⟩ : SignalMsg Nat).sender = 7 :=
  changed_sender_is_adapter (⟨7, some ⟨1, []⟩⟩ : GoogleMap Nat)
    [MapOp.set "y" 2] ⟨7, ⟨.add, "y", none, some 2⟩⟩ (by decide)

/-- Claim C3 as literally stated, at one input: on a non-disposed adapter,
`set(k, v)` returns the previous value and causes exactly one ChangeEvent to
be published for the mutation. -/
def claimC3At (a : GoogleMap Nat) (k : String) (v : Nat) : Prop :=
  ∃ prev a2 ms, a.set k v = .ok (prev, a2, ms) ∧ ms.length = 1

/-- C3 counterexample: on the adapter bound to a handle holding one ↦ 1,
`set("one", 1)` succeeds (returning the previous value 1) but publishes zero
events, not exactly one — storing the value already present is not a mutation,
so the native stream echoes nothing. -/
theorem set_single_event_counterexample :
    ¬ claimC3At ⟨0, some ⟨0, [("one", 1)]⟩⟩ "one" 1 := by
  rintro ⟨prev, a2, ms, h1, h2⟩
  have hcomp : (⟨0, some ⟨0, [("one", 1)]⟩⟩ : GoogleMap Nat).set "one" 1
      = .ok (some 1, ⟨0, some ⟨0, [("one", 1)]⟩⟩, []) := by
    simp [GoogleMap.set, hSetList, setEvents, hGet, GoogleMap.emitAll]
  rw [hcomp] at h1
  have hms : ms = [] := by
    simp only [Except.ok.injEq, Prod.mk.injEq] at h1
    exact h1.2.2.symm
  rw [hms] at h2
  exact absurd h2 (by decide)

/-- C3 (amended): on a non-disposed adapter, `set(k, v)` returns the value
previously associated with k (absent if none) and publishes exactly one
ChangeEvent when the write changes the stored state (key absent, or stored
value differing from v), and zero events when it stores the value already
present; it never publishes a second event for a direct local write. -/
theorem set_returns_previous_single_event {α : Type} [DecidableEq α]
    (a : GoogleMap α) (h : Handle α) (hb : a.googleObject = some h)
    (k : String) (v : α) :
    a.set k v = .ok (hGet h.entries k, (runOp a (.set k v)).1, (runOp a (.set k v)).2)
    ∧ ((runOp a (.set k v)).2).length
        = (if hGet h.entries k = some v then 0 else 1) := by
  constructor
  · simp [GoogleMap.set, runOp, hb]
  · simp only [runOp, GoogleMap.set, hb, GoogleMap.emitAll, List.length_map]
    cases hc : hGet h.entries k with
    | none => simp [setEvents, hc]
    | some w =>
      by_cases hwv : w = v
      · simp [setEvents, hc, hwv]
      · simp [setEvents, hc, hwv]

/-- Witness for the amended C3: setting a fresh key publishes exactly one
event. -/
theorem set_returns_previous_single_event_witness :
    ((runOp (⟨0, some ⟨0, []⟩⟩ : GoogleMap Nat) (.set "one" 1)).2).length = 1 := by
  have h := set_returns_previous_single_event
    (⟨0, some ⟨0, []⟩⟩ : GoogleMap Nat) ⟨0, []⟩ rfl "one" 1
  have hv : (if hGet ([] : List (String × Nat)) "one" = some 1 then 0 else 1) = 1 := by decide
  rw [h.2, hv]

/-- C4: after `dispose()`, `isDisposed` is true; any subsequent get/set/delete
fails with DisposedStateError; no operation on the disposed adapter delivers
any further event; and disposing again is a no-op that raises no error
(`dispose` is a total function and is idempotent). -/
theorem dispose_is_terminal_and_idempotent {α : Type} [DecidableEq α]
    (a : GoogleMap α) (k : String) (v : α) (op : MapOp α) :
    (a.dispose).isDisposed = true
    ∧ (a.dispose).get k = .error .disposed
    ∧ (a.dispose).set k v = .error .disposed
    ∧ (a.dispose).delete k = .error .disposed
    ∧ (runOp (a.dispose) op).2 = []
    ∧ (a.dispose).dispose = a.dispose := by
  refine ⟨rfl, rfl, rfl, rfl, ?_, rfl⟩
  cases op <;> rfl

/-- C5: for every sequence of set/delete/clear operations applied to a
non-disposed adapter, `get(k)` afterwards equals the value implied by
replaying the sequence under standard map semantics. -/
theorem get_replays_sequence {α : Type} [DecidableEq α] (ops : List (MapOp α)) :
    ∀ (a : GoogleMap α) (h : Handle α), a.googleObject = some h →
      (∀ op ∈ ops, op.isData = true) →
      ∀ k, ((runOps a ops).1).get k = .ok (ops.foldl replayModel (hGet h.entries) k) := by
  induction ops with
  | nil =>
    intro a h hb _ k
    simp [runOps, GoogleMap.get, hb]
  | cons op ops ih =>
    intro a h hb hdata k
    have hop := hdata op (by simp)
    have hrest : ∀ o ∈ ops, o.isData = true := fun o ho => hdata o (by simp [ho])
    cases op with
    | set k2 v =>
      have hfun : hGet (hSetList h.entries k2 v)
          = replayModel (hGet h.entries) (MapOp.set k2 v) := by
        funext x
        simp [replayModel, hGet_hSetList]
      have hrec := ih { a with googleObject := some { h with entries := hSetList h.entries k2 v } }
        { h with entries := hSetList h.entries k2 v } rfl hrest k
      simp only [runOps, runOp, GoogleMap.set, hb, List.foldl_cons]
      rw [← hfun]
      exact hrec
    | del k2 =>
      have hfun : hGet (hDeleteList h.entries k2)
          = replayModel (hGet h.entries) (MapOp.del k2) := by
        funext x
        simp [replayModel, hGet_hDeleteList]
      have hrec := ih { a with googleObject := some { h with entries := hDeleteList h.entries k2 } }
        { h with entries := hDeleteList h.entries k2 } rfl hrest k
      simp only [runOps, runOp, GoogleMap.delete, hb, List.foldl_cons]
      rw [← hfun]
      exact hrec
    | clear =>
      have hfun : hGet ([] : List (String × α)) = replayModel (hGet h.entries) MapOp.clear := by
        funext x; rfl
      have hrec := ih { a with googleObject := some { h with entries := [] } }
        { h with entries := [] } rfl hrest k
      simp only [runOps, runOp, GoogleMap.clear, hb, List.foldl_cons]
      rw [← hfun]
      exact hrec
    | swap h2 => simp [MapOp.isData] at hop
    | dispose => simp [MapOp.isData] at hop
    | remoteSet k2 v => simp [MapOp.isData] at hop
    | remoteDel k2 => simp [MapOp.isData] at hop

/-- Witness for C5: set then delete on the same key leaves `get` absent, as
the replay semantics implies. -/
theorem get_replays_sequence_witness :
    ((runOps (⟨0, some ⟨0, []⟩⟩ : GoogleMap Nat) [MapOp.set "a" 1, MapOp.del "a"]).1).get "a"
      = .ok none := by
  have h := get_replays_sequence [MapOp.set "a" 1, MapOp.del "a"]
    (⟨0, some ⟨0, []⟩⟩ : GoogleMap Nat) ⟨0, []⟩ rfl (by decide) "a"
  have hv : ([MapOp.set "a" 1, MapOp.del "a"].foldl replayModel
      (hGet ([] : List (String × Nat))) "a") = none := by decide
  rw [h, hv]

/-- C6: on a non-disposed adapter, `delete(k)` succeeds (never an error) and
returns the value that was stored at k — the absent sentinel when the key was
not present. -/
theorem delete_returns_previous_total {α : Type} [DecidableEq α]
    (a : GoogleMap α) (h : Handle α) (hb : a.googleObject = some h) (k : String) :
    a.delete k = .ok (hGet h.entries k, (runOp a (.del k)).1, (runOp a (.del k)).2) := by
  simp [GoogleMap.delete, runOp, hb]

/-- Witness for C6: deleting an absent key yields the absent sentinel, not an
error. -/
theorem delete_returns_previous_total_witness :
    (⟨0, some ⟨0, [("one", 1)]⟩⟩ : GoogleMap Nat).delete "two"
      = .ok (none, (runOp (⟨0, some ⟨0, [("one", 1)]⟩⟩ : GoogleMap Nat) (.del "two")).1,
             (runOp (⟨0, some ⟨0, [("one", 1)]⟩⟩ : GoogleMap Nat) (.del "two")).2) := by
  have h := delete_returns_previous_total
    (⟨0, some ⟨0, [("one", 1)]⟩⟩ : GoogleMap Nat) ⟨0, [("one", 1)]⟩ rfl "two"
  have hv : hGet ([("one", (1 : Nat))]) "two" = none := by decide
  rw [← hv]
  exact h

/-- C7: on a non-disposed adapter, `clear()` leaves size 0 and surfaces one
independent remove event per entry (no batched clear event); clearing an
already-empty map is a no-op emitting zero events, so a second `clear()`
emits nothing and size stays 0. -/
theorem clear_empties_and_idempotent {α : Type} [DecidableEq α]
    (a : GoogleMap α) (h : Handle α) (hb : a.googleObject = some h) :
    ((runOp a .clear).1).size = .ok 0
    ∧ ((runOp a .clear).2).map SignalMsg.args
        = h.entries.map (fun p => ⟨.remove, p.1, some p.2, none⟩)
    ∧ (h.entries = [] → (runOp a .clear).2 = [])
    ∧ (runOp (runOp a .clear).1 .clear).2 = []
    ∧ ((runOp (runOp a .clear).1 .clear).1).size = .ok 0 := by
  have hstep : runOp a .clear
      = ({ a with googleObject := some { h with entries := [] } },
         a.emitAll (clearEvents h.entries)) := by
    simp [runOp, GoogleMap.clear, hb]
  refine ⟨?_, ?_, ?_, ?_, ?_⟩
  · simp only [hstep]
    rfl
  · simp only [hstep]
    rw [emitAll_map_args]
    rfl
  · intro he
    simp only [hstep, he]
    rfl
  · simp only [hstep]
    rfl
  · simp only [hstep]
    rfl

/-- Witness for C7: clearing a two-entry map yields size 0 and one remove
event per key, and a second clear emits nothing. -/
theorem clear_empties_and_idempotent_witness :
    ((runOp (⟨0, some ⟨0, [("one", 1), ("two", 2)]⟩⟩ : GoogleMap Nat) .clear).1).size = .ok 0
    ∧ ((runOp (⟨0, some ⟨0, [("one", 1), ("two", 2)]⟩⟩ : GoogleMap Nat) .clear).2).map
        SignalMsg.args
      = [⟨.remove, "one", some 1, none⟩, ⟨.remove, "two", some 2, none⟩]
    ∧ (runOp (runOp (⟨0, some ⟨0, [("one", 1), ("two", 2)]⟩⟩ : GoogleMap Nat) .clear).1
        .clear).2 = [] := by
  have h := clear_empties_and_idempotent
    (⟨0, some ⟨0, [("one", 1), ("two", 2)]⟩⟩ : GoogleMap Nat) ⟨0, [("one", 1), ("two", 2)]⟩ rfl
  exact ⟨h.1, h.2.1, h.2.2.2.1⟩

/-- C8: on a non-disposed adapter, `keys()` and `values()` taken from the
same snapshot follow the handle's insertion order and correspond positionally:
the i-th key maps (under `get`) to the i-th value. -/
theorem keys_values_positional {α : Type} [DecidableEq α]
    (a : GoogleMap α) (h : Handle α) (hb : a.googleObject = some h)
    (hnd : (h.entries.map Prod.fst).Nodup) :
    a.keys = .ok (h.entries.map Prod.fst)
    ∧ a.values = .ok (h.entries.map Prod.snd)
    ∧ ∀ i (hi : i < h.entries.length),
        a.get ((h.entries.get ⟨i, hi⟩).1) = .ok (some ((h.entries.get ⟨i, hi⟩).2)) := by
  refine ⟨by simp [GoogleMap.keys, hb], by simp [GoogleMap.values, hb], ?_⟩
  intro i hi
  simp only [GoogleMap.get, hb]
  rw [hGet_get_of_nodup h.entries hnd i hi]

/-- Witness for C8: on the snapshot one ↦ 1, two ↦ 2, three ↦ 3, keys and
values come back in insertion order and the second key maps to the second
value. -/
theorem keys_values_positional_witness :
    (⟨0, some ⟨0, [("one", 1), ("two", 2), ("three", 3)]⟩⟩ : GoogleMap Nat).keys
      = .ok ["one", "two", "three"]
    ∧ (⟨0, some ⟨0, [("one", 1), ("two", 2), ("three", 3)]⟩⟩ : GoogleMap Nat).values
      = .ok [1, 2, 3]
    ∧ (⟨0, some ⟨0, [("one", 1), ("two", 2), ("three", 3)]⟩⟩ : GoogleMap Nat).get "two"
      = .ok (some 2) := by
  have h := keys_values_positional
    (⟨0, some ⟨0, [("one", 1), ("two", 2), ("three", 3)]⟩⟩ : GoogleMap Nat)
    ⟨0, [("one", 1), ("two", 2), ("three", 3)]⟩ rfl (by decide)
  exact ⟨h.1, h.2.1, h.2.2 1 (by decide)⟩

/-- C9: once the swap's unsubscribe step has run, no event originating from
the old handle's native stream is relayed to observers any more — after the
swap the adapter delivers only events of the new handle's stream (besides the
synthetic diff it emitted during the swap itself). -/
theorem swap_unsubscribes_old_handle {α : Type} [DecidableEq α]
    (a : GoogleMap α) (h1 h2 : Handle α) (hb : a.googleObject = some h1)
    (hid : h1.hid ≠ h2.hid) :
    (∀ e, ((a.setGoogleObject h2).1).relayNative h1.hid e = [])
    ∧ (∀ e, ((a.setGoogleObject h2).1).relayNative h2.hid e = [⟨a.id, e⟩])
    ∧ (∀ e, a.relayNative h1.hid e = [⟨a.id, e⟩]) := by
  refine ⟨?_, ?_, ?_⟩
  · intro e
    simp only [GoogleMap.setGoogleObject, hb, GoogleMap.relayNative]
    rw [if_neg (fun hh => hid hh.symm)]
  · intro e
    simp [GoogleMap.setGoogleObject, hb, GoogleMap.relayNative, GoogleMap.emitAll]
  · intro e
    simp [GoogleMap.relayNative, hb, GoogleMap.emitAll]

/-- Witness for C9: with the old handle on stream 0 and the new one on
stream 1, a native event of stream 0 is relayed before the swap and dropped
after it, while stream 1 events are relayed after the swap. -/
theorem swap_unsubscribes_old_handle_witness :
    (((⟨5, some ⟨0, []⟩⟩ : GoogleMap Nat).setGoogleObject ⟨1, []⟩).1).relayNative 0
        ⟨.add, "k", none, some 1⟩ = []
    ∧ (((⟨5, some ⟨0, []⟩⟩ : GoogleMap Nat).setGoogleObject ⟨1, []⟩).1).relayNative 1
        ⟨.add, "k", none, some 1⟩ = [⟨5, ⟨.add, "k", none, some 1⟩⟩]
    ∧ (⟨5, some ⟨0, []⟩⟩ : GoogleMap Nat).relayNative 0 ⟨.add, "k", none, some 1⟩
      = [⟨5, ⟨.add, "k", none, some 1⟩⟩] := by
  have h := swap_unsubscribes_old_handle (⟨5, some ⟨0, []⟩⟩ : GoogleMap Nat)
    ⟨0, []⟩ ⟨1, []⟩ rfl (by decide)
  exact ⟨h.1 ⟨.add, "k", none, some 1⟩, h.2.1 ⟨.add, "k", none, some 1⟩,
         h.2.2 ⟨.add, "k", none, some 1⟩⟩
